import Mathlib

/-!
Verification development for the DeepSeek OCR task-orchestration backend.

The definitions below are a shallow embedding of the backend's core:
`src/backend/inference_runner.py` (task state persistence, the per-line
progress loop of `run_ocr_task`), `src/backend/file_manager.py`
(`detect_file_type`, `list_result_files`), and `src/backend/main.py`
(`start_ocr_task`, `background_task`, `get_task_progress`).

Python dicts persisted as JSON are embedded as a record type with optional
fields (a field is `none` exactly when the corresponding key is absent from
the dict the code writes). The worker process is abstracted by the list of
output lines it emits and its exit code; the result directory's contents by
a tree of file-system entries; the per-run side effects by an explicit list
of events (state-store writes and notification publishes) in the order the
code performs them.
-/

/-- A persisted task record: the JSON object written by `write_task_state`.
Each optional field is `some` exactly when the code puts that key into the
dict it persists. -/
structure TaskRecord where
  status : String
  result_dir : Option String := none
  progress : Option Nat := none
  message : Option String := none
  files : Option (List String) := none
deriving Repr, DecidableEq

/-- The state store, keyed by task id. `none` models a missing/unreadable
state file (`read_task_state` returns `None` for both). -/
def Store : Type := String → Option TaskRecord

/-- Embeds `write_task_state` (inference_runner.py:29-34): persists `state` under
`task_id`. `json.dump` writes exactly the given dict, so the stored record
is replaced wholesale, not merged. -/
def write_task_state (store : Store) (task_id : String) (state : TaskRecord) : Store :=
  fun t => if t = task_id then some state else store t

/-- Embeds `read_task_state` (inference_runner.py:37-45): returns the persisted
record, or `none` when the state file is missing or unparseable. -/
def read_task_state (store : Store) (task_id : String) : Option TaskRecord :=
  store task_id

/-- The on-disk path of a task's state file (inference_runner.py:31). -/
def statePath (task_id : String) : String :=
  "task_" ++ task_id ++ ".json"

/-- Primitive file-system operations, used to model `write_task_state` at
the level of the file API it calls: `open(path, "w")` truncates `path`,
`json.dump` writes the serialized content, then the file is closed. -/
inductive FsOp where
  | openTrunc (path : String)
  | writeData (path : String) (content : String)
  | closeFile (path : String)
  | renameFile (src : String) (dst : String)
deriving Repr, DecidableEq

/-- The file operations `write_task_state` performs (inference_runner.py:32-33):
it opens the final state path in truncating write mode and writes the JSON
there directly — no temporary file and no rename. -/
def write_task_state_ops (task_id : String) (content : String) : List FsOp :=
  [FsOp.openTrunc (statePath task_id),
   FsOp.writeData (statePath task_id) content,
   FsOp.closeFile (statePath task_id)]

/-- File contents by path (association list). -/
def FsState : Type := List (String × String)

def fsLookup : FsState → String → Option String
  | [], _ => none
  | (p, c) :: rest, q => if q = p then some c else fsLookup rest q

def fsRemove : FsState → String → FsState
  | [], _ => []
  | (p, c) :: rest, q => if q = p then fsRemove rest q else (p, c) :: fsRemove rest q

def fsSet (fs : FsState) (p : String) (c : String) : FsState :=
  (p, c) :: fsRemove fs p

/-- Effect of one file operation on the file system: truncating open leaves
an empty file, a write appends to the current content, rename moves it. -/
def applyFsOp (fs : FsState) : FsOp → FsState
  | FsOp.openTrunc p => fsSet fs p ""
  | FsOp.writeData p c => fsSet fs p ((fsLookup fs p).getD "" ++ c)
  | FsOp.closeFile _ => fs
  | FsOp.renameFile s d =>
      match fsLookup fs s with
      | some c => fsSet (fsRemove fs s) d c
      | none => fs

/-- Whether a sequence of file operations follows the
write-to-temporary-then-atomic-rename discipline for `final`: some rename
targets `final`, and `final` itself is never opened for truncating write. -/
def usesTempThenRename (ops : List FsOp) (final : String) : Bool :=
  ops.any (fun op => match op with
    | FsOp.renameFile _ d => decide (d = final)
    | _ => false) &&
  ops.all (fun op => match op with
    | FsOp.openTrunc p => decide (p ≠ final)
    | FsOp.writeData p _ => decide (p ≠ final)
    | _ => true)

/-- Embeds `detect_file_type` (file_manager.py:22-33), as a function of the input
path's lowercased suffix (`Path(file_path).suffix.lower()`): `.pdf` is a
pdf, the listed image suffixes are images, anything else raises
`ValueError` (embedded as `Except.error` carrying the message). -/
def detect_file_type (ext : String) : Except String String :=
  if ext = ".pdf" then Except.ok "pdf"
  else if ext ∈ [".jpg", ".jpeg", ".png", ".bmp", ".tif", ".tiff"] then Except.ok "image"
  else Except.error ("❌ 不支援的檔案類型: " ++ ext)

/-- Does `pat` occur at the head of `l`? -/
def headMatch : List Char → List Char → Bool
  | [], _ => true
  | _ :: _, [] => false
  | p :: ps, c :: cs => p == c && headMatch ps cs

/-- Does `pat` occur as a contiguous run anywhere in `l`? (Python's
`pat in line`.) -/
def hasSub (pat : List Char) : List Char → Bool
  | [] => headMatch pat []
  | c :: cs => headMatch pat (c :: cs) || hasSub pat cs

/-- Python `str.strip`: drop leading and trailing whitespace. -/
def pyStrip (l : List Char) : List Char :=
  ((l.dropWhile Char.isWhitespace).reverse.dropWhile Char.isWhitespace).reverse

/-- Python `str.lower` (the patterns involved are ASCII). -/
def pyLower (l : List Char) : List Char :=
  l.map Char.toLower

/-- The progress classifier: the if/elif keyword chain of `_read_output`
(inference_runner.py:110-123) applied to one output line. The line is
stripped, lowercased, and checked against the substring patterns in the
code's order; the first matching branch gives the percentage; no match
gives `none` (the code then leaves `progress` unchanged). -/
def classify (line : String) : Option Nat :=
  let l := pyLower (pyStrip line.data)
  if hasSub "loading".data l then some 10
  else if hasSub "pre-processed".data l then some 30
  else if hasSub "generate".data l then some 60
  else if hasSub "save results".data l then some 90
  else if hasSub "result_with_boxes".data l || hasSub "complete".data l then some 100
  else none

/-- The spec's stage table (§4.2), ordered, earlier rows checked first;
the last row matches on either of two patterns. -/
def stage_table : List (List String × Nat) :=
  [(["loading"], 10),
   (["pre-processed"], 30),
   (["generate"], 60),
   (["save results"], 90),
   (["complete", "result_with_boxes"], 100)]

/-- Modelled from the spec: the classifier as the spec describes it — an
ordered table of (substring pattern, percentage) rows checked top to
bottom, case-insensitive substring match, first match wins, no match
yields `none`. Compared against `classify`, which embeds the code. -/
def classifyTable (line : String) : Option Nat :=
  let l := pyLower (pyStrip line.data)
  stage_table.findSome? (fun row =>
    if row.1.any (fun p => hasSub p.data l) then some row.2 else none)

/-- A result directory's contents: files and subdirectories. -/
inductive FSEntry where
  | file (nm : String)
  | dir (nm : String) (children : List FSEntry)

mutual

/-- Relative paths of all files below one entry, prefixed by `pre`. -/
def listFilesEntry (pre : String) : FSEntry → List String
  | FSEntry.file nm => [pre ++ nm]
  | FSEntry.dir nm children => listFilesList (pre ++ nm ++ "/") children

/-- Relative paths of all files below a list of entries. -/
def listFilesList (pre : String) : List FSEntry → List String
  | [] => []
  | e :: rest => listFilesEntry pre e ++ listFilesList pre rest

end

/-- Embeds `list_result_files` (file_manager.py:94-108): recursively enumerate the
result directory, returning each file's path relative to it; a missing
directory (`none`) yields the empty list. -/
def list_result_files (result_dir : Option (List FSEntry)) : List String :=
  match result_dir with
  | none => []
  | some entries => listFilesList "" entries

/-- The dict `run_ocr_task` returns (and `background_task` pushes as the
terminal WebSocket message). -/
structure RunResult where
  status : String
  result_dir : Option String := none
  files : Option (List String) := none
  message : Option String := none
deriving Repr, DecidableEq

/-- Observable events of one task run, in program order: a state-store
write (`write_task_state`), a per-line progress push (`on_progress`, which
sends `{task_id, progress}` over the WebSocket), or the terminal result
push (`ws.send_json(result)` in `background_task`). -/
inductive Ev where
  | write (r : TaskRecord)
  | publishProgress (p : Nat)
  | publishResult (r : RunResult)
deriving Repr, DecidableEq

/-- The record persisted while running (inference_runner.py:85 has no
progress key; inference_runner.py:126-130 includes one). -/
def runningRec (d : String) (p : Option Nat) : TaskRecord :=
  { status := "running", result_dir := some d, progress := p }

/-- The record persisted on failure (inference_runner.py:143,153). -/
def errorRec (msg : String) : TaskRecord :=
  { status := "error", message := some msg }

/-- The record persisted on success (inference_runner.py:147). -/
def finishedRec (d : String) (fs : List String) : TaskRecord :=
  { status := "finished", result_dir := some d, files := some fs }

/-- The message of the `RuntimeError` raised (and persisted) when the
worker exits non-zero (inference_runner.py:143-144). -/
def failMsg : String := "DeepSeek OCR 執行失敗"

/-- The per-line loop of `_read_output` (inference_runner.py:108-135):
for each output line, `progress` is assigned the classified value when a
keyword matches (otherwise left unchanged), the running record including
`progress` is persisted, and — when a WebSocket subscriber is connected —
the progress value is pushed via `on_progress`. -/
def lineEvents (subscribed : Bool) (d : String) : Nat → List String → List Ev
  | _, [] => []
  | p, l :: rest =>
    let p2 := (classify l).getD p
    Ev.write (runningRec d (some p2)) ::
      ((if subscribed then [Ev.publishProgress p2] else []) ++
        lineEvents subscribed d p2 rest)

/-- Embeds `run_ocr_task` (inference_runner.py:76-155) as the sequence of events
it performs plus the dict it returns. Inputs abstract its environment:
`ext` the input path's suffix, `d` the freshly created result directory,
`lines` the worker's output stream, `exitCode` the worker's exit code,
`fs` the result directory's final contents, `subscribed` whether a
WebSocket for this task id is in `active_connections`.

Order, following the code: the running record is persisted first (line 85);
`detect_file_type` is called after that (line 87) and a `ValueError` there
is caught by the outer handler, which persists an error record with the
exception's message (line 153). Otherwise the per-line loop runs; on a
non-zero exit the code persists an error record, raises `RuntimeError`,
and the handler persists the same error record again (lines 142-144, 153);
on exit 0 it enumerates the result files and persists the finished record
(lines 146-147). -/
def run_ocr_task (ext : String) (d : String) (lines : List String) (exitCode : Int)
    (fs : Option (List FSEntry)) (subscribed : Bool) : List Ev × RunResult :=
  let w0 := Ev.write (runningRec d none)
  match detect_file_type ext with
  | Except.error e =>
      ([w0, Ev.write (errorRec e)], { status := "error", message := some e })
  | Except.ok _ =>
      let body := lineEvents subscribed d 0 lines
      if exitCode ≠ 0 then
        (w0 :: body ++ [Ev.write (errorRec failMsg), Ev.write (errorRec failMsg)],
         { status := "error", message := some failMsg })
      else
        let outFiles := list_result_files fs
        (w0 :: body ++ [Ev.write (finishedRec d outFiles)],
         { status := "finished", result_dir := some d, files := some outFiles })

/-- Embeds `background_task` (main.py:96-106): run the task, then — when a
WebSocket for this task id is connected — push the returned result dict as
the terminal message. -/
def background_task (ext : String) (d : String) (lines : List String) (exitCode : Int)
    (fs : Option (List FSEntry)) (subscribed : Bool) : List Ev :=
  let run := run_ocr_task ext d lines exitCode fs subscribed
  run.1 ++ (if subscribed then [Ev.publishResult run.2] else [])

/-- Embeds `start_ocr_task` (main.py:85-109): when the payload has no `file_path`
or the file does not exist, respond with an error — no task id is minted
and nothing runs (empty event list). Otherwise mint a task id, schedule
`background_task`, and return the id. The file's type is NOT checked here. -/
def start_ocr_task (file_path_given : Bool) (file_exists : Bool) (task_id : String)
    (ext : String) (d : String) (lines : List String) (exitCode : Int)
    (fs : Option (List FSEntry)) (subscribed : Bool) : Option String × List Ev :=
  if file_path_given ∧ file_exists then
    (some task_id, background_task ext d lines exitCode fs subscribed)
  else
    (none, [])

/-- Embeds `get_task_progress` (main.py:159-174): returning `none` when the record is
missing; otherwise the record's status together with
`state.get("progress", 0)` — the progress field, defaulting to 0 when the
key is absent. -/
def get_task_progress (store : Store) (task_id : String) : Option (String × Nat) :=
  match read_task_state store task_id with
  | none => none
  | some st => some (st.status, st.progress.getD 0)

/-- Replay one event against the store for `task_id` (publishes do not
touch the store). -/
def applyEv (task_id : String) (store : Store) : Ev → Store
  | Ev.write r => write_task_state store task_id r
  | _ => store

/-- The store after replaying a run's events. -/
def storeAfter (task_id : String) (store : Store) (evs : List Ev) : Store :=
  evs.foldl (applyEv task_id) store

/-- Fold step tracking the most recent write. -/
def lastWriteStep (acc : Option TaskRecord) (ev : Ev) : Option TaskRecord :=
  match ev with
  | Ev.write r => some r
  | _ => acc

/-- The most recent write in an event list, starting from `acc`. -/
def lastWriteAux (acc : Option TaskRecord) (evs : List Ev) : Option TaskRecord :=
  evs.foldl lastWriteStep acc

/-- The record of the last store write in an event list, if any. -/
def lastWriteRec (evs : List Ev) : Option TaskRecord :=
  lastWriteAux none evs

/-- The record of the first store write in an event list, if any. -/
def firstWriteRec (evs : List Ev) : Option TaskRecord :=
  evs.findSome? (fun ev => match ev with | Ev.write r => some r | _ => none)

/-- The progress values carried by the store writes of an event list, in
order (writes without a progress field are skipped). -/
def progressWritesOf (evs : List Ev) : List Nat :=
  evs.filterMap (fun ev => match ev with | Ev.write r => r.progress | _ => none)

/-- Is a list of naturals non-decreasing left to right? -/
def nondecreasing : List Nat → Bool
  | [] => true
  | [_] => true
  | a :: b :: rest => a ≤ b && nondecreasing (b :: rest)

/-- Does the write `r` carry the same update as a progress push of `p`? -/
def matchesProgress (r : TaskRecord) (p : Nat) : Bool :=
  r.status == "running" && r.progress == some p

/-- Does the write `r` carry the same update as a terminal push of `res`? -/
def matchesResult (r : TaskRecord) (res : RunResult) : Bool :=
  r.status == res.status && r.message == res.message && r.files == res.files

/-- Every publish in the list is preceded by a store write for the same
update; `prev` is the most recent write before the list. Checked against
the last preceding write, which is stronger than mere precedence. -/
def writeBeforePublish : Option TaskRecord → List Ev → Bool
  | _, [] => true
  | _, Ev.write r :: rest => writeBeforePublish (some r) rest
  | prev, Ev.publishProgress p :: rest =>
      (match prev with | some r => matchesProgress r p | none => false) &&
        writeBeforePublish prev rest
  | prev, Ev.publishResult res :: rest =>
      (match prev with | some r => matchesResult r res | none => false) &&
        writeBeforePublish prev rest

/-- The five table percentages plus the initial 0. -/
def allowedProgress (p : Nat) : Bool :=
  [0, 10, 30, 60, 90, 100].contains p

/-- Every progress value an event carries is one of the allowed values. -/
def evProgressOk : Ev → Bool
  | Ev.write r => match r.progress with | none => true | some p => allowedProgress p
  | Ev.publishProgress p => allowedProgress p
  | Ev.publishResult _ => true

/-- The result dict of a failed run with the worker's failure message. -/
def errResultOf (e : String) : RunResult :=
  { status := "error", message := some e }

/-- The result dict of a successful run (inference_runner.py:150). -/
def finResult (d : String) (fls : List String) : RunResult :=
  { status := "finished", result_dir := some d, files := some fls }

/-- A worker output stream whose matched stages arrive out of the stage
table's nominal order: "generate" (60) before "loading" (10). -/
def c1lines : List String := ["Generate output", "loading model"]

/-- The spec's example result directory: files `a.txt` and `sub/b.txt`. -/
def exampleFS : Option (List FSEntry) :=
  some [FSEntry.file "a.txt", FSEntry.dir "sub" [FSEntry.file "b.txt"]]

/-! ### Helper lemmas -/

lemma fsLookup_fsSet (fs : FsState) (p v : String) :
    fsLookup (fsSet fs p v) p = some v := by
  simp [fsSet, fsLookup]

lemma lastWriteAux_append (a : Option TaskRecord) (xs ys : List Ev) :
    lastWriteAux a (xs ++ ys) = lastWriteAux (lastWriteAux a xs) ys := by
  simp [lastWriteAux, List.foldl_append]

lemma lastWriteAux_pubs (a : Option TaskRecord) (sub : Bool) (r : RunResult) :
    lastWriteAux a (if sub then [Ev.publishResult r] else []) = a := by
  cases sub <;> simp [lastWriteAux, lastWriteStep]

lemma read_storeAfter (tid : String) (evs : List Ev) :
    ∀ s : Store, read_task_state (storeAfter tid s evs) tid = lastWriteAux (s tid) evs := by
  induction evs with
  | nil => intro s; rfl
  | cons ev rest ih =>
    intro s
    cases ev with
    | write r =>
      have h1 : storeAfter tid s (Ev.write r :: rest) =
          storeAfter tid (write_task_state s tid r) rest := rfl
      rw [h1, ih]
      simp [lastWriteAux, lastWriteStep, write_task_state]
    | publishProgress p =>
      have h1 : storeAfter tid s (Ev.publishProgress p :: rest) = storeAfter tid s rest := rfl
      rw [h1, ih]
      rfl
    | publishResult r =>
      have h1 : storeAfter tid s (Ev.publishResult r :: rest) = storeAfter tid s rest := rfl
      rw [h1, ih]
      rfl

lemma classify_cases (l : String) :
    classify l = none ∨ classify l = some 10 ∨ classify l = some 30 ∨
    classify l = some 60 ∨ classify l = some 90 ∨ classify l = some 100 := by
  cases h1 : hasSub "loading".data (pyLower (pyStrip l.data)) <;>
    cases h2 : hasSub "pre-processed".data (pyLower (pyStrip l.data)) <;>
    cases h3 : hasSub "generate".data (pyLower (pyStrip l.data)) <;>
    cases h4 : hasSub "save results".data (pyLower (pyStrip l.data)) <;>
    cases h5 : hasSub "result_with_boxes".data (pyLower (pyStrip l.data)) <;>
    cases h6 : hasSub "complete".data (pyLower (pyStrip l.data)) <;>
    simp [classify, h1, h2, h3, h4, h5, h6]

lemma allowed_step (p : Nat) (l : String) (hp : allowedProgress p = true) :
    allowedProgress ((classify l).getD p) = true := by
  rcases classify_cases l with h | h | h | h | h | h <;> rw [h]
  · simpa using hp
  all_goals rw [Option.getD_some]
  all_goals rfl

lemma wbp_write (prev : Option TaskRecord) (r : TaskRecord) (rest : List Ev) :
    writeBeforePublish prev (Ev.write r :: rest) = writeBeforePublish (some r) rest := rfl

lemma wbp_pubProg (r : TaskRecord) (p : Nat) (rest : List Ev) :
    writeBeforePublish (some r) (Ev.publishProgress p :: rest) =
      (matchesProgress r p && writeBeforePublish (some r) rest) := rfl

lemma wbp_pubRes (r : TaskRecord) (res : RunResult) (rest : List Ev) :
    writeBeforePublish (some r) (Ev.publishResult res :: rest) =
      (matchesResult r res && writeBeforePublish (some r) rest) := rfl

lemma matchesProgress_running (d : String) (p : Nat) :
    matchesProgress (runningRec d (some p)) p = true := by
  simp [matchesProgress, runningRec]

lemma wbp_lineEvents_append (sub : Bool) (d : String) (tail : List Ev)
    (htail : ∀ prev, writeBeforePublish prev tail = true) :
    ∀ (lines : List String) (p : Nat) (prev : Option TaskRecord),
      writeBeforePublish prev (lineEvents sub d p lines ++ tail) = true := by
  intro lines
  induction lines with
  | nil =>
    intro p prev
    simpa [lineEvents] using htail prev
  | cons l rest ih =>
    intro p prev
    cases sub with
    | false =>
      simp only [lineEvents, if_neg, Bool.false_eq_true, not_false_iff, List.nil_append,
        List.cons_append, wbp_write]
      exact ih _ _
    | true =>
      simp only [lineEvents, if_pos, List.singleton_append, List.cons_append, wbp_write,
        wbp_pubProg, matchesProgress_running, Bool.true_and]
      exact ih _ _

lemma lineEvents_progressOk (sub : Bool) (d : String) :
    ∀ (lines : List String) (p : Nat), allowedProgress p = true →
      (lineEvents sub d p lines).all evProgressOk = true := by
  intro lines
  induction lines with
  | nil => intro p _; simp [lineEvents]
  | cons l rest ih =>
    intro p hp
    have hp2 := allowed_step p l hp
    cases sub <;>
      simp [lineEvents, List.all_cons, List.all_append, evProgressOk, runningRec, hp2,
        ih _ hp2]

/-! ### Claim theorems -/

/-- C1 counterexample: the orchestrator does NOT clamp progress to
`max(currentProgress, classifiedValue)`. On the out-of-order stream
`c1lines`, the progress values persisted by consecutive writes of the same
Running task are `[60, 10]` — the later read is strictly smaller than the
earlier one, refuting the monotonic-non-decreasing claim. -/
theorem c1_counterexample :
    progressWritesOf (background_task ".png" "d" c1lines 0 (some []) false) = [60, 10] ∧
    nondecreasing
      (progressWritesOf (background_task ".png" "d" c1lines 0 (some []) false)) = false := by
  constructor
  · decide
  · decide

/-- C1 amended: for each output line the orchestrator persists the raw
classified value — `(classify l).getD current` (the current value only when
no pattern matches) — with no max-clamp, so persisted progress is
non-decreasing only when the matched stages arrive in the stage table's
nominal order; an out-of-order stream makes the persisted progress
decrease. -/
theorem c1_progress_assigned_not_clamped :
    (∀ (sub : Bool) (d : String) (p : Nat) (l : String) (rest : List String),
      firstWriteRec (lineEvents sub d p (l :: rest)) =
        some (runningRec d (some ((classify l).getD p)))) ∧
    (∃ lines : List String,
      nondecreasing (progressWritesOf (background_task ".png" "d" lines 0 (some []) false))
        = false) := by
  constructor
  · intro sub d p l rest
    cases sub <;> simp [lineEvents, firstWriteRec]
  · exact ⟨c1lines, by decide⟩

/-- C2 counterexample: `write_task_state` performs no
write-to-temporary-then-atomic-rename: its operation sequence contains no
rename and opens the final state path itself in truncating mode, and after
that very first operation a concurrent reader of the state path observes
`""` — neither the old record nor the new one, i.e. a partially written
record. -/
theorem c2_counterexample :
    usesTempThenRename (write_task_state_ops "t1" "new-record") (statePath "t1") = false ∧
    (write_task_state_ops "t1" "new-record").head? = some (FsOp.openTrunc (statePath "t1")) ∧
    fsLookup (applyFsOp [(statePath "t1", "old-record")] (FsOp.openTrunc (statePath "t1")))
      (statePath "t1") = some "" ∧
    ("" : String) ≠ "old-record" ∧ ("" : String) ≠ "new-record" := by
  refine ⟨by decide, by decide, by decide, by decide, by decide⟩

/-- C2 amended: the store write is in-place and not atomic. Running the
full operation sequence of `write_task_state` leaves the new content at the
state path, but the sequence first truncates that same path, so a reader
interleaved between the truncating open and the data write observes an
empty (partial) record; `read_task_state` maps such unparseable content to
`none` rather than crashing. -/
theorem c2_inplace_write (tid c : String) (fs0 : FsState) :
    fsLookup ((write_task_state_ops tid c).foldl applyFsOp fs0) (statePath tid) = some c ∧
    fsLookup (applyFsOp fs0 (FsOp.openTrunc (statePath tid))) (statePath tid) = some "" := by
  constructor
  · show fsLookup (applyFsOp (applyFsOp (applyFsOp fs0
      (FsOp.openTrunc (statePath tid))) (FsOp.writeData (statePath tid) c))
      (FsOp.closeFile (statePath tid))) (statePath tid) = some c
    simp [applyFsOp, fsLookup_fsSet]
  · simp [applyFsOp, fsLookup_fsSet]

/-- C3 counterexample: `write_task_state` does not merge: after the
Running record `{status, result_dir, progress}` for task `t1` is followed
by the status-only Failed patch `{status, message}`, the persisted record
no longer holds `result_dir` or `progress`, though the prior record held
both. -/
theorem c3_counterexample :
    read_task_state
      (write_task_state
        (write_task_state (fun _ => none) "t1" (runningRec "d" (some 60)))
        "t1" (errorRec failMsg)) "t1" = some (errorRec failMsg) ∧
    (runningRec "d" (some 60)).result_dir = some "d" ∧
    (runningRec "d" (some 60)).progress = some 60 ∧
    (errorRec failMsg).result_dir = none ∧
    (errorRec failMsg).progress = none := by
  refine ⟨?_, rfl, rfl, rfl, rfl⟩
  simp [read_task_state, write_task_state]

/-- C3 amended: `write_task_state` replaces the persisted record wholesale:
after `write(taskId, state)`, `read(taskId)` returns exactly `state`
(fields of the previously persisted record that are absent from `state` do
not survive), while records of other task ids are unaffected. -/
theorem c3_write_replaces (store : Store) (tid : String) (r : TaskRecord) :
    read_task_state (write_task_state store tid r) tid = some r ∧
    ∀ t2, t2 ≠ tid → read_task_state (write_task_state store tid r) t2 =
      read_task_state store t2 := by
  constructor
  · simp [read_task_state, write_task_state]
  · intro t2 h2
    simp [read_task_state, write_task_state, h2]

/-- Witness for C3's amended theorem at a concrete input. -/
theorem c3_write_replaces_witness :
    read_task_state (write_task_state (fun _ => none) "a" (errorRec "m")) "a" =
      some (errorRec "m") ∧
    read_task_state (write_task_state (fun _ => none) "a" (errorRec "m")) "b" = none :=
  ⟨(c3_write_replaces (fun _ => none) "a" (errorRec "m")).1,
   (c3_write_replaces (fun _ => none) "a" (errorRec "m")).2 "b" (by decide)⟩

/-- C4: the Progress Classifier is the spec's ordered-table lookup — the
code's if/elif chain agrees with top-to-bottom, first-match-wins,
case-insensitive substring matching over the stage table
loading→10, pre-processed→30, generate→60, save results→90,
complete/result_with_boxes→100 — and on the spec's two examples,
"Generate output" classifies to 60 and "unrelated log noise" to none. -/
theorem c4_classifier_table :
    (∀ line : String, classify line = classifyTable line) ∧
    classify "Generate output" = some 60 ∧
    classify "unrelated log noise" = none := by
  refine ⟨?_, by decide, by decide⟩
  intro line
  cases h1 : hasSub "loading".data (pyLower (pyStrip line.data)) <;>
    cases h2 : hasSub "pre-processed".data (pyLower (pyStrip line.data)) <;>
    cases h3 : hasSub "generate".data (pyLower (pyStrip line.data)) <;>
    cases h4 : hasSub "save results".data (pyLower (pyStrip line.data)) <;>
    cases h5 : hasSub "result_with_boxes".data (pyLower (pyStrip line.data)) <;>
    cases h6 : hasSub "complete".data (pyLower (pyStrip line.data)) <;>
    simp [classify, classifyTable, stage_table, h1, h2, h3, h4, h5, h6]

lemma lastWriteAux_nil (a : Option TaskRecord) : lastWriteAux a [] = a := rfl

lemma lastWriteAux_cons (a : Option TaskRecord) (x : Ev) (xs : List Ev) :
    lastWriteAux a (x :: xs) = lastWriteAux (lastWriteStep a x) xs := rfl

/-- The event list of a non-zero-exit run, in the code's order. -/
lemma background_trace_nonzero (ext d : String) (lines : List String) (ec : Int)
    (fs : Option (List FSEntry)) (sub : Bool) (ft : String)
    (hd : detect_file_type ext = Except.ok ft) (hec : ec ≠ 0) :
    background_task ext d lines ec fs sub =
      Ev.write (runningRec d none) :: (lineEvents sub d 0 lines ++
        ([Ev.write (errorRec failMsg), Ev.write (errorRec failMsg)] ++
          (if sub then [Ev.publishResult (errResultOf failMsg)] else []))) := by
  unfold background_task run_ocr_task
  rw [hd]
  simp [hec, errResultOf, List.cons_append, List.append_assoc]

/-- The event list of an exit-code-0 run, in the code's order. -/
lemma background_trace_zero (ext d : String) (lines : List String)
    (fs : Option (List FSEntry)) (sub : Bool) (ft : String)
    (hd : detect_file_type ext = Except.ok ft) :
    background_task ext d lines 0 fs sub =
      Ev.write (runningRec d none) :: (lineEvents sub d 0 lines ++
        ([Ev.write (finishedRec d (list_result_files fs))] ++
          (if sub then
            [Ev.publishResult (finResult d (list_result_files fs))] else []))) := by
  unfold background_task run_ocr_task
  rw [hd]
  simp [finResult, List.cons_append, List.append_assoc]

/-- C5: when the worker exits non-zero, the last persisted record — and
the record `getState` (i.e. `read_task_state`) returns afterwards — has
status `"error"` (the code's representation of Failed) with the non-empty
error message `failMsg`. -/
theorem c5_nonzero_exit_failed (ext d tid : String) (lines : List String)
    (fs : Option (List FSEntry)) (sub : Bool) (ec : Int)
    (hok : (detect_file_type ext).isOk = true) (hec : ec ≠ 0) :
    lastWriteRec (background_task ext d lines ec fs sub) = some (errorRec failMsg) ∧
    read_task_state (storeAfter tid (fun _ => none) (background_task ext d lines ec fs sub))
      tid = some (errorRec failMsg) ∧
    (errorRec failMsg).status = "error" ∧
    (errorRec failMsg).message = some failMsg ∧
    failMsg ≠ "" := by
  obtain ⟨ft, hd⟩ : ∃ ft, detect_file_type ext = Except.ok ft := by
    cases hdd : detect_file_type ext with
    | ok ft => exact ⟨ft, rfl⟩
    | error e => rw [hdd] at hok; simp [Except.isOk, Except.toBool] at hok
  have haux : lastWriteAux none (background_task ext d lines ec fs sub) =
      some (errorRec failMsg) := by
    rw [background_trace_nonzero ext d lines ec fs sub ft hd hec]
    rw [lastWriteAux_cons, lastWriteAux_append, lastWriteAux_append]
    simp only [lastWriteAux_cons, lastWriteAux_nil, lastWriteStep, lastWriteAux_pubs]
  refine ⟨haux, ?_, rfl, rfl, by decide⟩
  rw [read_storeAfter]
  exact haux

/-- Witness for C5 at a concrete input: a `.pdf` task whose worker exits
with code 1. -/
theorem c5_nonzero_exit_failed_witness :
    lastWriteRec (background_task ".pdf" "d" [] 1 none false) = some (errorRec failMsg) ∧
    read_task_state (storeAfter "t1" (fun _ => none) (background_task ".pdf" "d" [] 1 none false))
      "t1" = some (errorRec failMsg) ∧
    (errorRec failMsg).status = "error" ∧
    (errorRec failMsg).message = some failMsg ∧
    failMsg ≠ "" :=
  c5_nonzero_exit_failed ".pdf" "d" "t1" [] none false 1 (by rfl) (by decide)

/-- C6: when the worker exits with code 0, the persisted Finished record's
file list is exactly the recursive enumeration of the result directory's
files as relative paths (`list_result_files`), and that record is what a
subsequent read returns; on the spec's example directory the enumeration
is, up to order, `{"a.txt", "sub/b.txt"}`. -/
theorem c6_zero_exit_output_files (ext d tid : String) (lines : List String)
    (fs : Option (List FSEntry)) (sub : Bool)
    (hok : (detect_file_type ext).isOk = true) :
    lastWriteRec (background_task ext d lines 0 fs sub) =
      some (finishedRec d (list_result_files fs)) ∧
    read_task_state (storeAfter tid (fun _ => none) (background_task ext d lines 0 fs sub))
      tid = some (finishedRec d (list_result_files fs)) ∧
    (finishedRec d (list_result_files fs)).files = some (list_result_files fs) ∧
    List.Perm (list_result_files exampleFS) ["a.txt", "sub/b.txt"] := by
  obtain ⟨ft, hd⟩ : ∃ ft, detect_file_type ext = Except.ok ft := by
    cases hdd : detect_file_type ext with
    | ok ft => exact ⟨ft, rfl⟩
    | error e => rw [hdd] at hok; simp [Except.isOk, Except.toBool] at hok
  have haux : lastWriteAux none (background_task ext d lines 0 fs sub) =
      some (finishedRec d (list_result_files fs)) := by
    rw [background_trace_zero ext d lines fs sub ft hd]
    rw [lastWriteAux_cons, lastWriteAux_append, lastWriteAux_append]
    simp only [lastWriteAux_cons, lastWriteAux_nil, lastWriteStep, lastWriteAux_pubs]
  refine ⟨haux, ?_, rfl, by decide⟩
  rw [read_storeAfter]
  exact haux

/-- Witness for C6 at a concrete input: a `.png` task with the example
result directory. -/
theorem c6_zero_exit_output_files_witness :
    lastWriteRec (background_task ".png" "d" [] 0 exampleFS false) =
      some (finishedRec "d" (list_result_files exampleFS)) ∧
    read_task_state
      (storeAfter "t1" (fun _ => none) (background_task ".png" "d" [] 0 exampleFS false))
      "t1" = some (finishedRec "d" (list_result_files exampleFS)) ∧
    (finishedRec "d" (list_result_files exampleFS)).files =
      some (list_result_files exampleFS) ∧
    List.Perm (list_result_files exampleFS) ["a.txt", "sub/b.txt"] :=
  c6_zero_exit_output_files ".png" "d" "t1" [] exampleFS false (by rfl)

/-- C7 counterexample: an unsupported-type input (an existing `.docx`
file) is NOT rejected before a task is created: `start_ocr_task` returns a
task id to the caller, and the scheduled run persists a Running record and
then an error record — the task enters the state machine. Only the
type-detection failure inside the run, not the request handler, reports
the unsupported type. -/
theorem c7_counterexample :
    detect_file_type ".docx" = Except.error "❌ 不支援的檔案類型: .docx" ∧
    (start_ocr_task true true "ab12cd34" ".docx" "d" [] 0 none false).1 = some "ab12cd34" ∧
    (start_ocr_task true true "ab12cd34" ".docx" "d" [] 0 none false).2 =
      [Ev.write (runningRec "d" none),
       Ev.write (errorRec "❌ 不支援的檔案類型: .docx")] := by
  refine ⟨by rfl, by decide, by decide⟩

/-- C7 amended: a request with a missing `file_path` (or a non-existent
file) is rejected before any task is created — no task id, no persisted
record. A request whose file exists but has an unsupported type is
accepted: a task id is returned, a Running record is persisted, and the
run then fails with an error record carrying the `ValueError` message. -/
theorem c7_input_error_handling (tid ext d : String) (lines : List String) (ec : Int)
    (fs : Option (List FSEntry)) (sub : Bool) (e : String) :
    start_ocr_task false true tid ext d lines ec fs sub = (none, []) ∧
    start_ocr_task true false tid ext d lines ec fs sub = (none, []) ∧
    (detect_file_type ext = Except.error e →
      (start_ocr_task true true tid ext d lines ec fs sub).1 = some tid ∧
      firstWriteRec (start_ocr_task true true tid ext d lines ec fs sub).2 =
        some (runningRec d none) ∧
      lastWriteRec (start_ocr_task true true tid ext d lines ec fs sub).2 =
        some (errorRec e)) := by
  refine ⟨by simp [start_ocr_task], by simp [start_ocr_task], ?_⟩
  intro hd
  unfold start_ocr_task background_task run_ocr_task
  rw [hd]
  cases sub <;>
    simp [firstWriteRec, lastWriteRec, lastWriteAux_cons, lastWriteAux_nil, lastWriteStep]

/-- Witness for C7's amended theorem at a concrete input. -/
theorem c7_input_error_handling_witness :
    (start_ocr_task true true "ab12cd34" ".docx" "d" [] 0 none false).1 = some "ab12cd34" ∧
    firstWriteRec (start_ocr_task true true "ab12cd34" ".docx" "d" [] 0 none false).2 =
      some (runningRec "d" none) ∧
    lastWriteRec (start_ocr_task true true "ab12cd34" ".docx" "d" [] 0 none false).2 =
      some (errorRec "❌ 不支援的檔案類型: .docx") :=
  (c7_input_error_handling "ab12cd34" ".docx" "d" [] 0 none false
    "❌ 不支援的檔案類型: .docx").2.2 (by rfl)

/-- C8: in the event sequence of a run, every Notification Hub publish —
each per-line progress push and the terminal result push — is preceded by
the State Store write for that same update (indeed, the most recent write
before the publish carries exactly the published update). -/
theorem c8_write_precedes_publish (ext d : String) (lines : List String) (ec : Int)
    (fs : Option (List FSEntry)) (sub : Bool) :
    writeBeforePublish none (background_task ext d lines ec fs sub) = true := by
  cases hd : detect_file_type ext with
  | error e =>
    unfold background_task run_ocr_task
    rw [hd]
    cases sub <;> simp [writeBeforePublish, matchesResult, errorRec]
  | ok ft =>
    by_cases hec : ec ≠ 0
    · rw [background_trace_nonzero ext d lines ec fs sub ft hd hec, wbp_write]
      apply wbp_lineEvents_append
      intro prev
      cases sub <;>
        simp [writeBeforePublish, matchesResult, errorRec, errResultOf]
    · push_neg at hec
      subst hec
      rw [background_trace_zero ext d lines fs sub ft hd, wbp_write]
      apply wbp_lineEvents_append
      intro prev
      cases sub <;>
        simp [writeBeforePublish, matchesResult, finishedRec, finResult]

/-- C9: every progress value a run persists (in a record's progress field)
or pushes (in a progress event) lies in {0, 10, 30, 60, 90, 100}: progress
starts at 0 and is only ever assigned one of the five table percentages. -/
theorem c9_progress_in_table (ext d : String) (lines : List String) (ec : Int)
    (fs : Option (List FSEntry)) (sub : Bool) :
    (background_task ext d lines ec fs sub).all evProgressOk = true := by
  cases hd : detect_file_type ext with
  | error e =>
    unfold background_task run_ocr_task
    rw [hd]
    cases sub <;> simp [evProgressOk, errorRec, runningRec]
  | ok ft =>
    by_cases hec : ec ≠ 0
    · rw [background_trace_nonzero ext d lines ec fs sub ft hd hec]
      have hbody := lineEvents_progressOk sub d lines 0 (by rfl)
      cases sub <;>
        simp_all [List.all_cons, List.all_append, evProgressOk, errorRec, runningRec]
    · push_neg at hec
      subst hec
      rw [background_trace_zero ext d lines fs sub ft hd]
      have hbody := lineEvents_progressOk sub d lines 0 (by rfl)
      cases sub <;>
        simp_all [List.all_cons, List.all_append, evProgressOk, finishedRec, runningRec]

/-- C10: the record persisted at task creation and the terminal record
(Finished or Failed) carry no progress field, and for any persisted record
without a progress field the progress poll (`get_task_progress`) reports
progress 0. -/
theorem c10_poll_defaults_to_zero (ext d tid : String) (lines : List String) (ec : Int)
    (fs : Option (List FSEntry)) (sub : Bool) :
    (firstWriteRec (background_task ext d lines ec fs sub)).map TaskRecord.progress =
      some none ∧
    (lastWriteRec (background_task ext d lines ec fs sub)).map TaskRecord.progress =
      some none ∧
    (∀ r : TaskRecord, r.progress = none →
      get_task_progress (write_task_state (fun _ => none) tid r) tid =
        some (r.status, 0)) := by
  refine ⟨?_, ?_, ?_⟩
  · cases hd : detect_file_type ext with
    | error e =>
      unfold background_task run_ocr_task
      rw [hd]
      cases sub <;> simp [firstWriteRec, runningRec]
    | ok ft =>
      by_cases hec : ec ≠ 0
      · rw [background_trace_nonzero ext d lines ec fs sub ft hd hec]
        simp [firstWriteRec, runningRec]
      · push_neg at hec
        subst hec
        rw [background_trace_zero ext d lines fs sub ft hd]
        simp [firstWriteRec, runningRec]
  · cases hd : detect_file_type ext with
    | error e =>
      unfold background_task run_ocr_task
      rw [hd]
      cases sub <;>
        simp [lastWriteRec, lastWriteAux_cons, lastWriteAux_nil, lastWriteStep,
          lastWriteAux_pubs, errorRec]
    | ok ft =>
      by_cases hec : ec ≠ 0
      · show (lastWriteAux none (background_task ext d lines ec fs sub)).map
          TaskRecord.progress = some none
        rw [background_trace_nonzero ext d lines ec fs sub ft hd hec]
        rw [lastWriteAux_cons, lastWriteAux_append, lastWriteAux_append]
        simp only [lastWriteAux_cons, lastWriteAux_nil, lastWriteStep, lastWriteAux_pubs]
        rfl
      · push_neg at hec
        subst hec
        show (lastWriteAux none (background_task ext d lines 0 fs sub)).map
          TaskRecord.progress = some none
        rw [background_trace_zero ext d lines fs sub ft hd]
        rw [lastWriteAux_cons, lastWriteAux_append, lastWriteAux_append]
        simp only [lastWriteAux_cons, lastWriteAux_nil, lastWriteStep, lastWriteAux_pubs]
        rfl
  · intro r h
    simp [get_task_progress, read_task_state, write_task_state, h]

/-- Witness for C10 at a concrete input: polling a task whose persisted
record is the Failed record (no progress field) reports progress 0. -/
theorem c10_poll_defaults_to_zero_witness :
    get_task_progress (write_task_state (fun _ => none) "t1" (errorRec "boom")) "t1" =
      some ("error", 0) :=
  (c10_poll_defaults_to_zero ".pdf" "d" "t1" [] 0 none false).2.2 (errorRec "boom") rfl
